import Mathlib

/-!
Verification development for the packspec conformance-test interpreter
(`src/cli.js`, and the newer revision of the same command-line module kept in
the repository, called `part_001` below).  The development embeds the feature
parser, the value resolver (`evalValue`), the feature executor (`testFeature`)
and the pass/fail comparator as executable Lean functions over a JSON-like
value type, and proves or refutes the specification's claims about them.

Modelling conventions:
  * JavaScript runtime values are modelled by `Value`.  Lists and plain
    objects carry a numeric identity so that the strict-equality operator
    `===` (which compares compound values by reference) can be modelled:
    two compound values are `===`-equal exactly when their identities agree.
  * Machine floats are not exercised by any claim; numbers are `Int`.
  * Fallible steps (a thrown JavaScript exception) are `Except`.
  * Calls into the implementation under test are opaque: an `Env` supplies
    the effect of `new property(...args)` and `property.bind(owner)(...args)`,
    returning `none` when the call throws.
  * String `toUpperCase` is modelled on ASCII letters (`Char.toUpper`),
    which is the fragment the sources exercise.
-/

/-- A JavaScript runtime value as manipulated by the interpreter.  `list` and
`obj` carry an identity (`id`) standing for the heap reference, used only by
the strict-equality model `jsEq`.  Object entries are kept in insertion
order, as JavaScript does for string keys. -/
inductive Value where
  | undefined
  | null
  | bool (b : Bool)
  | num (n : Int)
  | str (s : String)
  | fn (id : Nat)
  | list (id : Nat) (elems : List Value)
  | obj (id : Nat) (entries : List (String × Value))

/-- A specification scope: the live name-to-value environment
(`spec.scope`), an insertion-ordered own-property table. -/
def Scope := List (String × Value)

/-- JavaScript strict equality `===`: primitives by value, `list`/`obj`
(heap values) by reference identity. -/
def jsEq : Value → Value → Bool
  | .undefined, .undefined => true
  | .null, .null => true
  | .bool a, .bool b => a == b
  | .num a, .num b => a == b
  | .str a, .str b => a == b
  | .fn a, .fn b => a == b
  | .list a _, .list b _ => a == b
  | .obj a _, .obj b _ => a == b
  | _, _ => false

/-- JavaScript truthiness of a value (`if (v)`). -/
def jsTruthy : Value → Bool
  | .undefined => false
  | .null => false
  | .bool b => b
  | .num n => n != 0
  | .str s => s != ""
  | .fn _ => true
  | .list _ _ => true
  | .obj _ _ => true

/-- Truthiness of an optional string field (JavaScript `undefined` or a
string: empty strings are falsy). -/
def optTruthy : Option String → Bool
  | none => false
  | some s => s != ""

/-- Split a character list at a separator character. -/
def splitOnChar (c : Char) : List Char → List (List Char)
  | [] => [[]]
  | x :: xs =>
    let r := splitOnChar c xs
    if x == c then [] :: r
    else
      match r with
      | [] => [x] :: []
      | h :: t => (x :: h) :: t

/-- JavaScript `s.split(sep)` for a one-character separator: always
returns at least one (possibly empty) piece. -/
def jsSplit (s : String) (c : Char) : List String :=
  (splitOnChar c s.data).map String.mk

/-- JavaScript `s.endsWith(t)`. -/
def strEndsWith (s t : String) : Bool := t.data.isSuffixOf s.data

/-- Drop the last `n` characters of a string (`s.slice(0, -n)`). -/
def strDropRight (s : String) (n : Nat) : String :=
  String.mk (s.data.take (s.data.length - n))

/-- `lodash.size`: length of a collection or string, `0` otherwise. -/
def sizeVal : Value → Nat
  | .obj _ es => es.length
  | .list _ xs => xs.length
  | .str s => s.length
  | _ => 0

/-- `String.prototype.toUpperCase`, restricted to ASCII letters. -/
def jsStrToUpper (s : String) : String := String.mk (s.data.map Char.toUpper)

/-- Own-property read on an object's entry table; missing keys read as
`undefined`, as in JavaScript. -/
def entryLookup : List (String × Value) → String → Value
  | [], _ => .undefined
  | (k0, v0) :: es, k => if k0 == k then v0 else entryLookup es k

/-- Own-property write on an object's entry table: an existing key is
updated in place (its position kept), a new key is appended, matching
JavaScript property insertion order. -/
def entryUpdate : List (String × Value) → String → Value → List (String × Value)
  | [], k, v => [(k, v)]
  | (k0, v0) :: es, k, v =>
    if k0 == k then (k0, v) :: es else (k0, v0) :: entryUpdate es k v

/-- Lookup distinguishing a missing binding (`none`) from a binding whose
value is `undefined`; used to model a `ReferenceError` on a free variable. -/
def scopeFind : List (String × Value) → String → Option Value
  | [], _ => none
  | (k0, v0) :: es, k => if k0 == k then some v0 else scopeFind es k

/-- JavaScript member access `owner[name]` as it behaves inside the
executor: reading a property of `undefined`/`null` throws (`.error`),
objects read their own entries (missing gives `undefined`), and every other
value yields `undefined` (built-in properties such as `length` are not
modelled; no claim exercises them). -/
def jsGetProp : Value → String → Except Unit Value
  | .undefined, _ => .error ()
  | .null, _ => .error ()
  | .obj _ es, k => .ok (entryLookup es k)
  | _, _ => .ok .undefined

/-- Member write `owner[name] = v`: payload update on objects; on
primitives a sloppy-mode write is silently ignored (the sources are not in
strict mode). -/
def jsSetProp : Value → String → Value → Value
  | .obj id es, k, v => .obj id (entryUpdate es k v)
  | owner, _, _ => owner

/-- Iterated member access along a chain of names (the executor's
`for (const name of names) owner = owner[name]` walk). -/
def walkOwner : Value → List String → Except Unit Value
  | owner, [] => .ok owner
  | owner, n :: rest =>
    match jsGetProp owner n with
    | .error e => .error e
    | .ok next => walkOwner next rest

/-- The reference-marker evaluation
`new vm.Script(key).runInNewContext(scope)` of `evalValue`, modelled for
dotted-identifier keys (the shape the specification language uses): the
first name is looked up as a global of the contextified scope (missing
raises `ReferenceError`), the remaining names are member accesses. -/
def scopeEval (scope : Scope) (key : String) : Except Unit Value :=
  match jsSplit key '.' with
  | [] => .error ()
  | k0 :: rest =>
    match scopeFind scope k0 with
    | none => .error ()
    | some v => walkOwner v rest

mutual

/-- Structural (deep) equality of values, ignoring object identity.
Modelled from the spec: the "deep-equal under a canonicalized comparison"
the comparator is claimed to use; mappings compare entrywise in author
order. -/
def deepEqual : Value → Value → Bool
  | .undefined, .undefined => true
  | .null, .null => true
  | .bool a, .bool b => a == b
  | .num a, .num b => a == b
  | .str a, .str b => a == b
  | .fn a, .fn b => a == b
  | .list _ xs, .list _ ys => deepEqualList xs ys
  | .obj _ es, .obj _ fs => deepEqualEntries es fs
  | _, _ => false

/-- Deep equality on element lists. -/
def deepEqualList : List Value → List Value → Bool
  | [], [] => true
  | x :: xs, y :: ys => deepEqual x y && deepEqualList xs ys
  | _, _ => false

/-- Deep equality on entry tables. -/
def deepEqualEntries : List (String × Value) → List (String × Value) → Bool
  | [], [] => true
  | (k, v) :: es, (l, w) :: fs => k == l && deepEqual v w && deepEqualEntries es fs
  | _, _ => false

end

/-- The reference-marker test of `evalValue`
(`isPlainObject(value) && size(value) === 1 && Object.values(value)[0] === null`),
returning the marker's key (`Object.keys(value)[0]`) when the entry table
has the marker shape: exactly one entry whose value is `null`. -/
def markerKey : List (String × Value) → Option String
  | [(k, .null)] => some k
  | _ => none

mutual

/-- The value resolver `evalValue(value, scope)` of the newer module
revision: a reference marker (a plain object with exactly one entry whose
value is `null`) is replaced by the result of evaluating its key against
the scope; every other plain object has its entry values resolved; arrays
have their elements resolved; all other values pass through.  The source's
`lodash.cloneDeep` has no observable content in this value-level model.
A thrown evaluation (unbound reference) is `.error`. -/
def evalValue (scope : Scope) : Value → Except Unit Value
  | .obj id es =>
    match markerKey es with
    | some k => scopeEval scope k
    | none =>
      match evalEntries scope es with
      | .error e => .error e
      | .ok es2 => .ok (.obj id es2)
  | .list id xs =>
    match evalList scope xs with
    | .error e => .error e
    | .ok xs2 => .ok (.list id xs2)
  | v => .ok v

/-- Elementwise resolution of an array's elements. -/
def evalList (scope : Scope) : List Value → Except Unit (List Value)
  | [] => .ok []
  | x :: xs =>
    match evalValue scope x with
    | .error e => .error e
    | .ok x2 =>
      match evalList scope xs with
      | .error e => .error e
      | .ok xs2 => .ok (x2 :: xs2)

/-- Valuewise resolution of an object's entries. -/
def evalEntries (scope : Scope) : List (String × Value) → Except Unit (List (String × Value))
  | [] => .ok []
  | (k, v) :: es =>
    match evalValue scope v with
    | .error e => .error e
    | .ok v2 =>
      match evalEntries scope es with
      | .error e => .error e
      | .ok es2 => .ok ((k, v2) :: es2)

end


mutual

/-- `noMarkers v`: `v` contains no reference marker anywhere (no nested
single-entry mapping whose value is `null`). -/
def noMarkers : Value → Bool
  | .obj _ es => (markerKey es).isNone && noMarkersEntries es
  | .list _ xs => noMarkersList xs
  | _ => true

/-- `noMarkers` over list elements. -/
def noMarkersList : List Value → Bool
  | [] => true
  | x :: xs => noMarkers x && noMarkersList xs

/-- `noMarkers` over entry values. -/
def noMarkersEntries : List (String × Value) → Bool
  | [] => true
  | (_, v) :: es => noMarkers v && noMarkersEntries es

end

/-- A parsed feature of the newer module revision
(`parseFeature`): skip flag, call flag, the `assign` and `property` path
strings from the left-hand side, positional and keyword arguments, and the
expected value `result` (`null` when no expected value was authored). -/
structure Feature where
  skip : Bool
  call : Bool
  assign : Option String
  property : Option String
  args : List Value
  kwargs : List (String × Value)
  result : Value

/-- The implementation under test, seen through the two call forms the
executor uses: `construct id args` is `await new f(...args)` and
`invoke id owner args` is `await f.bind(owner)(...args)` for the function
value `fn id`; `none` is a thrown (or rejected) call. -/
structure Env where
  construct : Nat → List Value → Option Value
  invoke : Nat → Value → List Value → Option Value

/-- An error that escapes `testFeature` uncaught: either the deliberate
constant-reassignment `Error` or any other uncaught JavaScript exception
(e.g. a failed reference resolution). -/
inductive Fatal where
  | jsError
  | constantReassign (name : String)

/-- The left-hand-side filter computation of `parseFeature` (newer
revision): `skip.split(':')`, then
`(filters[0] === 'not') === filters.includes('js')`; an absent or empty
raw filter leaves the feature unskipped. -/
def parseSkip : Option String → Bool
  | none => false
  | some s =>
    if s == "" then false
    else
      let filters := jsSplit s ':'
      (filters.headD "" == "not") == filters.contains "js"

/-- One step of the right-hand-side scan of `parseFeature` (newer
revision), threading the accumulated `(args, kwargs, result)` state: a
single-entry sub-mapping keyed exactly `==` replaces `result`; one whose
key ends in `=` upserts a keyword argument under the key without its final
character; everything else is appended to `args`. -/
def scanStep (acc : List Value × List (String × Value) × Value) (item : Value) :
    List Value × List (String × Value) × Value :=
  match item with
  | .obj oid [(k, v)] =>
    if k == "==" then (acc.1, acc.2.1, v)
    else if strEndsWith k "=" then (acc.1, entryUpdate acc.2.1 (strDropRight k 1) v, acc.2.2)
    else (acc.1 ++ [.obj oid [(k, v)]], acc.2.1, acc.2.2)
  | _ => (acc.1 ++ [item], acc.2.1, acc.2.2)

/-- The full right-hand-side scan (`for (const item of right)`), starting
from empty arguments and a `null` expected value. -/
def scanArgs (items : List Value) : List Value × List (String × Value) × Value :=
  items.foldl scanStep ([], [], .null)

/-- Raw left-hand-side capture groups of `parseFeature`'s pattern
`^(?:(.*):)?(?:([^=]*)=)?([^=].*)?$` (after underscore camelization):
optional filter text, optional assign path, optional property text. -/
structure RawLeft where
  skipRaw : Option String
  assign : Option String
  property : Option String

/-- `parseFeature` of the newer module revision, from the regex capture
groups on: computes `skip`, rejects an entry with neither assign nor
property, derives `call` from the property (a trailing `==` strips itself
and forces a plain comparison), and — only when `call` — scans the
right-hand side, which must then be iterable (an array, or a string whose
iteration yields its one-character substrings); a non-iterable right-hand
side under `call` throws.  Without `call` the whole right-hand side is the
expected value.  The `text` rendering is presentation-layer output and is
not modelled. -/
def parseFeatureCore (L : RawLeft) (right : Value) : Except Unit Feature :=
  let skip := parseSkip L.skipRaw
  if !(optTruthy L.assign || optTruthy L.property) then .error ()
  else
    let pc : Option String × Bool :=
      if optTruthy L.property then
        let s := L.property.getD ""
        if strEndsWith s "==" then (some (strDropRight s 2), false) else (some s, true)
      else (L.property, false)
    if pc.2 then
      match right with
      | .list _ items =>
        let (args, kwargs, result) := scanArgs items
        .ok { skip, call := true, assign := L.assign, property := pc.1, args, kwargs, result }
      | .str s =>
        let (args, kwargs, result) := scanArgs (s.data.map fun c => .str (String.mk [c]))
        .ok { skip, call := true, assign := L.assign, property := pc.1, args, kwargs, result }
      | _ => .error ()
    else
      .ok { skip, call := false, assign := L.assign, property := pc.1,
            args := [], kwargs := [], result := right }

/-- Lift an opaque call's outcome into the executor's exception monad. -/
def exceptOfOption : Option Value → Except Unit Value
  | some v => .ok v
  | none => .error ()

/-- The argument vector actually passed by the executor (newer revision):
positional arguments, with the resolved keyword-argument value appended as
one trailing argument when `lodash.size` of it is non-zero. -/
def callArgsOf (args : List Value) (kwargsV : Value) : List Value :=
  if sizeVal kwargsV != 0 then args ++ [kwargsV] else args

/-- The call step of the executor (newer revision): reading `lastName[0]`
of an empty name throws; a first character equal to its own upper-cased
image selects `new property(...)`, anything else selects
`property.bind(owner)(...)`; either form throws when `property` is not a
function. -/
def runCall (env : Env) (owner p : Value) (lastName : String) (cArgs : List Value) :
    Except Unit Value :=
  match lastName.data with
  | [] => .error ()
  | c :: _ =>
    if c.toUpper == c then
      match p with
      | .fn id => exceptOfOption (env.construct id cArgs)
      | _ => .error ()
    else
      match p with
      | .fn id => exceptOfOption (env.invoke id owner cArgs)
      | _ => .error ()

/-- The guarded (`try`) block of `testFeature` (newer revision): split the
property path, walk all but the last name from the scope object to obtain
`owner`, read `owner[lastName]`, then either call it (per `runCall`) or
return the read value. -/
def execTry (env : Env) (scope : Scope) (f : Feature) (args : List Value) (kwargsV : Value) :
    Except Unit Value :=
  let names := jsSplit (f.property.getD "") '.'
  let lastName := names.getLastD ""
  match walkOwner (.obj 0 scope) names.dropLast with
  | .error e => .error e
  | .ok owner =>
    match jsGetProp owner lastName with
    | .error e => .error e
    | .ok p =>
      if f.call then runCall env owner p lastName (callArgsOf args kwargsV)
      else .ok p

/-- The resolution step `evalFeature` (newer revision): when `call`,
`args` and `kwargs` are resolved (the keyword table is itself a plain
object and is resolved as one value); the expected value `result` is
always resolved.  Any resolution failure is a thrown exception. -/
def evalFeatureParts (scope : Scope) (f : Feature) :
    Except Unit (List Value × Value × Value) :=
  let rargs : Except Unit (List Value) :=
    if f.call then evalList scope f.args else .ok f.args
  let rkw : Except Unit Value :=
    if f.call then evalValue scope (.obj 0 f.kwargs) else .ok (.obj 0 f.kwargs)
  match rargs with
  | .error e => .error e
  | .ok args =>
    match rkw with
    | .error e => .error e
    | .ok kwargsV =>
      match evalValue scope f.result with
      | .error e => .error e
      | .ok expected => .ok (args, kwargsV, expected)

/-- The executed outcome (newer revision): when the feature has a truthy
property the guarded block runs and a caught exception collapses to the
`'ERROR'` sentinel string; otherwise the outcome is the resolved expected
value itself (a pure literal feature). -/
def execOutcome (env : Env) (scope : Scope) (f : Feature) (args : List Value)
    (kwargsV expected : Value) : Value :=
  if optTruthy f.property then
    match execTry env scope f args kwargsV with
    | .ok v => v
    | .error _ => .str "ERROR"
  else expected

/-- The assign step (newer revision), running outside any `try`: walk all
but the last name of the assign path (an access on `undefined`/`null`
throws uncaught), then, when `owner[lastName]` is not `undefined` and the
last name equals its own upper-cased image, throw the
constant-reassignment `Error` (uncaught); otherwise write the outcome at
the last name. -/
def assignWalk : Value → List String → Value → Except Fatal Value
  | owner, [], _ => .ok owner
  | owner, [last], res =>
    match jsGetProp owner last with
    | .error _ => .error .jsError
    | .ok cur =>
      if !jsEq cur .undefined && jsStrToUpper last == last then .error (.constantReassign last)
      else .ok (jsSetProp owner last res)
  | owner, n :: r :: rest, res =>
    match jsGetProp owner n with
    | .error _ => .error .jsError
    | .ok child =>
      match assignWalk child (r :: rest) res with
      | .error e => .error e
      | .ok child2 => .ok (jsSetProp owner n child2)

/-- Recover the entry table of the (always object-valued) updated scope. -/
def asScope : Value → Scope
  | .obj _ es => es
  | _ => []

/-- The assign step applied to a feature: runs only for a truthy `assign`
path. -/
def applyAssign (scope : Scope) (f : Feature) (result : Value) : Except Fatal Scope :=
  if optTruthy f.assign then
    match assignWalk (.obj 0 scope) (jsSplit (f.assign.getD "") '.') result with
    | .error e => .error e
    | .ok v => .ok (asScope v)
  else .ok scope

/-- The comparison of `testFeature` (newer revision), verbatim from
`(feature.result !== null) ? result === feature.result : result !== 'ERROR'`
with the resolved expected value: a non-`null` expected value is compared
by strict equality; a `null` one only requires the outcome not to be the
`'ERROR'` sentinel. -/
def part1Success (expected result : Value) : Bool :=
  bif jsEq expected .null then !jsEq result (.str "ERROR") else jsEq result expected

/-- `testFeature(feature, scope)` of the newer module revision: a skipped
feature immediately reports success; otherwise the feature's values are
resolved (uncaught on failure), the outcome is produced (exceptions inside
the guarded block collapsing to `'ERROR'`), the assign step runs (its
errors uncaught), and the comparison verdict is returned with the updated
scope. -/
def testFeature (env : Env) (f : Feature) (scope : Scope) : Except Fatal (Bool × Scope) :=
  if f.skip then .ok (true, scope)
  else
    match evalFeatureParts scope f with
    | .error _ => .error .jsError
    | .ok (args, kwargsV, expected) =>
      let result := execOutcome env scope f args kwargsV expected
      match applyAssign scope f result with
      | .error e => .error e
      | .ok scope2 => .ok (part1Success expected result, scope2)

/-- A parsed feature of `src/cli.js` (older revision): its parser always
produces a (possibly empty) `property` string, `args` is `null` unless the
right-hand side was an array (whose popped last element became `result`),
and there are no keyword arguments. -/
structure CliFeature where
  skip : Bool
  assign : Option String
  property : String
  args : Option (List Value)
  result : Value

/-- `parseInterpolation`-based argument substitution of `src/cli.js`: a
plain object with exactly one entry whose value is `null` is replaced by
the scope binding of its key (a single, undotted name; a missing binding
reads as `undefined`), anything else is passed through. -/
def cliInterp (scope : Scope) (arg : Value) : Value :=
  match arg with
  | .obj _ [(k, .null)] => entryLookup scope k
  | arg => arg

/-- Write-back along the already-walked property path for the
set-property branch of `src/cli.js` (`owner[names[names.length-1]] =
result`): the walked reads have already succeeded, so this recomputes the
same accesses and updates functionally. -/
def cliSetWalk : Value → List String → Value → Except Unit Value
  | owner, [], _ => .ok owner
  | owner, [last], res => .ok (jsSetProp owner last res)
  | owner, n :: r :: rest, res =>
    match jsGetProp owner n with
    | .error e => .error e
    | .ok child =>
      match cliSetWalk child (r :: rest) res with
      | .error e => .error e
      | .ok child2 => .ok (jsSetProp owner n child2)

/-- The guarded (`try`) block of `src/cli.js`'s `testFeature`: walk the
property path; with `args` present, interpolate them and construct or
invoke by the same first-character test; with no `args`, a truthy property
value is the outcome (get), and a falsy one selects the set-property
branch, which throws the constant `Error` (caught by the surrounding
`catch`!) when the last name equals its own upper-cased image and
otherwise writes the feature's expected value into the scope and returns
it. -/
def cliExec (env : Env) (scope : Scope) (f : CliFeature) : Except Unit (Value × Scope) :=
  let names := jsSplit f.property '.'
  let lastName := names.getLastD ""
  match walkOwner (.obj 0 scope) names.dropLast with
  | .error e => .error e
  | .ok owner =>
    match jsGetProp owner lastName with
    | .error e => .error e
    | .ok p =>
      match f.args with
      | some rawArgs =>
        match runCall env owner p lastName (rawArgs.map (cliInterp scope)) with
        | .error e => .error e
        | .ok v => .ok (v, scope)
      | none =>
        if jsTruthy p then .ok (p, scope)
        else if jsStrToUpper lastName == lastName then .error ()
        else
          match cliSetWalk (.obj 0 scope) names f.result with
          | .error e => .error e
          | .ok v => .ok (f.result, asScope v)

/-- The comparison of `src/cli.js`'s `testFeature`, verbatim from
`(result === feature.result) || (result !== 'ERROR' && feature.result === 'ANY')`:
strict equality with the (unresolved) expected value, or a non-`'ERROR'`
outcome against the `'ANY'` sentinel. -/
def cliSuccess (result expected : Value) : Bool :=
  jsEq result expected || (!jsEq result (.str "ERROR") && jsEq expected (.str "ANY"))

/-- `testFeature(feature, scope)` of `src/cli.js`: a skipped feature
reports success; otherwise the guarded block runs (every exception,
including the constant `Error` of the set-property branch, collapses to
the `'ERROR'` outcome), then a truthy `assign` name is bound at the top
level of the scope unconditionally and without any constant check, and the
comparison verdict is returned.  No error ever escapes. -/
def cliTestFeature (env : Env) (f : CliFeature) (scope : Scope) : Bool × Scope :=
  if f.skip then (true, scope)
  else
    let rs : Value × Scope :=
      match cliExec env scope f with
      | .ok vs => vs
      | .error _ => (.str "ERROR", scope)
    let scope2 : Scope :=
      if optTruthy f.assign then entryUpdate rs.2 (f.assign.getD "") rs.1 else rs.2
    (cliSuccess rs.1 f.result, scope2)

/-- Modelled from the spec: "upper-case" as a property of a character
(an ASCII upper-case letter), used to state the claimed
construct-versus-invoke rule. -/
def specIsUpperChar (c : Char) : Bool := decide ('A' ≤ c) && decide (c ≤ 'Z')

/-- An element of a call's right-hand side that supplies the expected
value: a single-entry sub-mapping keyed exactly `==`. -/
def isExpItem : Value → Bool
  | .obj _ [(k, _)] => k == "=="
  | _ => false

/-- An element of a call's right-hand side that is a keyword argument: a
single-entry sub-mapping whose key ends in `=` but is not `==`. -/
def isKwItem : Value → Bool
  | .obj _ [(k, _)] => !(k == "==") && strEndsWith k "="
  | _ => false

/-- The positional arguments a right-hand-side scan keeps: every element
that is neither the expected-value item nor a keyword argument, in
order. -/
def argsOf (items : List Value) : List Value :=
  items.filter fun it => !isExpItem it && !isKwItem it

/-- The value of the last expected-value item of a scan, if any. -/
def expFind : List Value → Option Value
  | [] => none
  | it :: rest =>
    match expFind rest with
    | some v => some v
    | none =>
      match it with
      | .obj _ [(k, v)] => if k == "==" then some v else none
      | _ => none

/-- The expected value a right-hand-side scan produces: the last
`==`-keyed item's value, or `null` when no such item exists. -/
def expectedOf (items : List Value) : Value := (expFind items).getD .null

/-- One keyword-argument insertion (key with its trailing `=` stripped). -/
def kwStep (m : List (String × Value)) (it : Value) : List (String × Value) :=
  match it with
  | .obj _ [(k, v)] => entryUpdate m (strDropRight k 1) v
  | _ => m

/-- The keyword arguments a right-hand-side scan produces: every
keyword-argument item upserted in order under its stripped key. -/
def kwargsOf (items : List Value) : List (String × Value) :=
  (items.filter isKwItem).foldl kwStep []

/-- An environment whose every call into the implementation throws. -/
def envThrow : Env := ⟨fun _ _ => none, fun _ _ _ => none⟩

/-- An environment that records which call form was chosen: construction
returns the string `"constructed"`, invocation the string `"invoked"`. -/
def envTag : Env := ⟨fun _ _ => some (.str "constructed"), fun _ _ _ => some (.str "invoked")⟩

mutual

/-- Resolution is the identity on values without reference markers. -/
theorem evalValue_noMarkers (scope : Scope) :
    ∀ v : Value, noMarkers v = true → evalValue scope v = .ok v
  | .undefined, _ => rfl
  | .null, _ => rfl
  | .bool _, _ => rfl
  | .num _, _ => rfl
  | .str _, _ => rfl
  | .fn _, _ => rfl
  | .list _ xs, h => by
      have h1 : noMarkersList xs = true := by simpa [noMarkers] using h
      simp [evalValue, evalList_noMarkers scope xs h1]
  | .obj _ es, h => by
      have h1 : (markerKey es).isNone = true ∧ noMarkersEntries es = true := by
        simpa [noMarkers, Bool.and_eq_true] using h
      have hk : markerKey es = none := Option.isNone_iff_eq_none.mp h1.1
      simp [evalValue, hk, evalEntries_noMarkers scope es h1.2]

/-- Elementwise form of `evalValue_noMarkers`. -/
theorem evalList_noMarkers (scope : Scope) :
    ∀ xs : List Value, noMarkersList xs = true → evalList scope xs = .ok xs
  | [], _ => rfl
  | x :: xs, h => by
      have h1 : noMarkers x = true ∧ noMarkersList xs = true := by
        simpa [noMarkersList, Bool.and_eq_true] using h
      simp [evalList, evalValue_noMarkers scope x h1.1, evalList_noMarkers scope xs h1.2]

/-- Entrywise form of `evalValue_noMarkers`. -/
theorem evalEntries_noMarkers (scope : Scope) :
    ∀ es : List (String × Value), noMarkersEntries es = true → evalEntries scope es = .ok es
  | [], _ => rfl
  | (_, v) :: es, h => by
      have h1 : noMarkers v = true ∧ noMarkersEntries es = true := by
        simpa [noMarkersEntries, Bool.and_eq_true] using h
      simp [evalEntries, evalValue_noMarkers scope v h1.1, evalEntries_noMarkers scope es h1.2]

end

/-- Accumulator-generalized characterization of the right-hand-side scan:
the scan keeps the non-special elements in order after the initial
arguments, folds the keyword items in order into the keyword table, and
ends on the last expected-value item (or the initial expected value). -/
theorem foldl_scanStep_eq :
    ∀ (items : List Value) (a : List Value) (kw : List (String × Value)) (r : Value),
      items.foldl scanStep (a, kw, r)
        = (a ++ argsOf items, (items.filter isKwItem).foldl kwStep kw, (expFind items).getD r)
  | [], a, kw, r => by simp [argsOf, expFind]
  | it :: rest, a, kw, r => by
      have ih := foldl_scanStep_eq rest
      cases it with
      | obj oid es =>
        rcases es with _ | ⟨⟨k, v⟩, es2⟩
        · simp [List.foldl, scanStep, argsOf, List.filter, isExpItem, isKwItem, expFind, ih,
            List.append_assoc]
          cases expFind rest <;> rfl
        · rcases es2 with _ | ⟨e2, es3⟩
          · by_cases hk : (k == "==") = true
            · cases hrest : expFind rest <;>
                simp [List.foldl, scanStep, hk, argsOf, List.filter, isExpItem, isKwItem,
                  expFind, ih, hrest]
            · by_cases hw : strEndsWith k "=" = true
              · simp [List.foldl, scanStep, hk, hw, argsOf, List.filter, isExpItem, isKwItem,
                  expFind, ih, kwStep]
                cases expFind rest <;> rfl
              · simp [List.foldl, scanStep, hk, hw, argsOf, List.filter, isExpItem, isKwItem,
                  expFind, ih, List.append_assoc]
                cases expFind rest <;> rfl
          · simp [List.foldl, scanStep, argsOf, List.filter, isExpItem, isKwItem, expFind, ih,
              List.append_assoc]
            cases expFind rest <;> rfl
      | undefined =>
        simp [List.foldl, scanStep, argsOf, List.filter, isExpItem, isKwItem, expFind, ih,
          List.append_assoc]
        cases expFind rest <;> rfl
      | null =>
        simp [List.foldl, scanStep, argsOf, List.filter, isExpItem, isKwItem, expFind, ih,
          List.append_assoc]
        cases expFind rest <;> rfl
      | bool b =>
        simp [List.foldl, scanStep, argsOf, List.filter, isExpItem, isKwItem, expFind, ih,
          List.append_assoc]
        cases expFind rest <;> rfl
      | num n =>
        simp [List.foldl, scanStep, argsOf, List.filter, isExpItem, isKwItem, expFind, ih,
          List.append_assoc]
        cases expFind rest <;> rfl
      | str s =>
        simp [List.foldl, scanStep, argsOf, List.filter, isExpItem, isKwItem, expFind, ih,
          List.append_assoc]
        cases expFind rest <;> rfl
      | fn i =>
        simp [List.foldl, scanStep, argsOf, List.filter, isExpItem, isKwItem, expFind, ih,
          List.append_assoc]
        cases expFind rest <;> rfl
      | list i xs =>
        simp [List.foldl, scanStep, argsOf, List.filter, isExpItem, isKwItem, expFind, ih,
          List.append_assoc]
        cases expFind rest <;> rfl

/-- The right-hand-side scan computes exactly the filtered positional
arguments, the folded keyword arguments, and the last expected value. -/
theorem scanArgs_eq (items : List Value) :
    scanArgs items = (argsOf items, kwargsOf items, expectedOf items) := by
  simpa [scanArgs, kwargsOf, expectedOf] using foldl_scanStep_eq items [] [] .null

/-- When the assign walk reads a bound (non-`undefined`) value under a
last segment equal to its own upper-cased image, it throws the
constant-reassignment error, whatever the prefix path was. -/
theorem assignWalk_constant :
    ∀ (pre : List String) (owner : Value) (last : String) (res mid cur : Value),
      walkOwner owner pre = .ok mid → jsGetProp mid last = .ok cur →
      jsEq cur .undefined = false → jsStrToUpper last = last →
      assignWalk owner (pre ++ [last]) res = .error (.constantReassign last)
  | [], owner, last, res, mid, cur, hw, hg, hne, hup => by
      have hmid : owner = mid := by simpa [walkOwner] using hw
      subst hmid
      simp [assignWalk, hg, hne, hup]
  | n :: pre', owner, last, res, mid, cur, hw, hg, hne, hup => by
      rw [walkOwner] at hw
      cases hgo : jsGetProp owner n with
      | error e => rw [hgo] at hw; exact absurd hw (by simp)
      | ok child =>
        rw [hgo] at hw
        have ihx := assignWalk_constant pre' child last res mid cur hw hg hne hup
        cases pre' with
        | nil =>
          simp only [List.nil_append] at ihx
          have heq : assignWalk owner (n :: [last]) res
              = match jsGetProp owner n with
                | .error _ => .error .jsError
                | .ok child =>
                  match assignWalk child [last] res with
                  | .error e => .error e
                  | .ok child2 => .ok (jsSetProp owner n child2) := rfl
          simp only [List.cons_append, List.nil_append]
          rw [heq, hgo]
          simp [ihx]
        | cons m pre'' =>
          simp only [List.cons_append] at ihx ⊢
          have heq : assignWalk owner (n :: m :: (pre'' ++ [last])) res
              = match jsGetProp owner n with
                | .error _ => .error .jsError
                | .ok child =>
                  match assignWalk child (m :: (pre'' ++ [last])) res with
                  | .error e => .error e
                  | .ok child2 => .ok (jsSetProp owner n child2) := rfl
          rw [heq, hgo]
          simp [ihx]

/-- A single-segment assign that does not hit the constant check writes
the outcome as a top-level binding. -/
theorem assignWalk_single (scope : Scope) (a : String) (res : Value)
    (h : (!jsEq (entryLookup scope a) .undefined && (jsStrToUpper a == a)) = false) :
    assignWalk (.obj 0 scope) [a] res = .ok (.obj 0 (entryUpdate scope a res)) := by
  simp [assignWalk, jsGetProp, h, jsSetProp]

/-- **C9** (confirmed): resolving a value containing no reference markers
against any scope returns the value unchanged (in this value-level model,
"a structurally-equal clone" is the value itself), recursing through
nested lists and mappings; resolution is therefore idempotent on
marker-free values. -/
theorem c9_resolution_identity (scope : Scope) (v : Value) (h : noMarkers v = true) :
    evalValue scope v = .ok v :=
  evalValue_noMarkers scope v h

/-- Witness for **C9** at a concrete nested marker-free value (note the
two-entry mapping with a `null` value is not a marker). -/
theorem c9_resolution_identity_witness :
    noMarkers (.list 3 [.num 1, .obj 4 [("a", .str "b"), ("c", .null)]]) = true ∧
    evalValue [] (.list 3 [.num 1, .obj 4 [("a", .str "b"), ("c", .null)]])
      = .ok (.list 3 [.num 1, .obj 4 [("a", .str "b"), ("c", .null)]]) :=
  ⟨rfl, c9_resolution_identity [] _ rfl⟩

/-- **C5** (confirmed): the resolver replaces every reference marker — a
mapping with exactly one entry whose value is `null` — by the live value
its key denotes in the scope, recurses into mapping values and list
elements, and treats single-entry mappings with a non-`null` value and
multi-entry mappings as literal data (resolved entrywise, never
substituted). -/
theorem c5_resolver_reference_markers (scope : Scope) :
    (∀ (id : Nat) (k : String) (v : Value),
       scopeEval scope k = .ok v →
       evalValue scope (.obj id [(k, .null)]) = .ok v)
  ∧ (∀ (id : Nat) (k : String) (w w2 : Value),
       jsEq w .null = false → evalValue scope w = .ok w2 →
       evalValue scope (.obj id [(k, w)]) = .ok (.obj id [(k, w2)]))
  ∧ (∀ (id : Nat) (e1 e2 : String × Value) (es es2 : List (String × Value)),
       evalEntries scope (e1 :: e2 :: es) = .ok es2 →
       evalValue scope (.obj id (e1 :: e2 :: es)) = .ok (.obj id es2))
  ∧ (∀ (id : Nat) (xs xs2 : List Value),
       evalList scope xs = .ok xs2 →
       evalValue scope (.list id xs) = .ok (.list id xs2))
  ∧ (∀ (x : Value) (xs : List Value) (x2 : Value) (xs2 : List Value),
       evalValue scope x = .ok x2 → evalList scope xs = .ok xs2 →
       evalList scope (x :: xs) = .ok (x2 :: xs2)) := by
  refine ⟨?_, ?_, ?_, ?_, ?_⟩
  · intro id k v h
    simp [evalValue, markerKey, h]
  · intro id k w w2 hwn hv
    cases w <;> simp_all [jsEq, evalValue, markerKey, evalEntries]
  · intro id e1 e2 es es2 h
    simp [evalValue, markerKey, h]
  · intro id xs xs2 h
    simp [evalValue, h]
  · intro x xs x2 xs2 hx hxs
    simp [evalList, hx, hxs]

/-- Witness for **C5**: a marker under a list inside a literal mapping is
substituted by the live scope value at its dotted path. -/
theorem c5_resolver_reference_markers_witness :
    evalValue [("a", .obj 9 [("b", .num 7)])] (.obj 1 [("a.b", .null)]) = .ok (.num 7) :=
  (c5_resolver_reference_markers [("a", .obj 9 [("b", .num 7)])]).1 1 "a.b" (.num 7) rfl

/-- **C10** (confirmed): an expected value authored as the explicit
literal `null` through a `==`-keyed element parses to the same `null`
expected value as authoring no `==` element at all, and the comparator
then passes the feature exactly when the outcome is not the `'ERROR'`
sentinel — an operation expected to return `null` is never compared
against `null`. -/
theorem c10_null_expected_indistinguishable :
    (∀ r : Value, part1Success .null r = !jsEq r (.str "ERROR"))
  ∧ parseFeatureCore { skipRaw := none, assign := none, property := some "f" }
      (.list 0 [.obj 1 [("==", .null)]])
      = .ok { skip := false, call := true, assign := none, property := some "f",
              args := [], kwargs := [], result := .null }
  ∧ parseFeatureCore { skipRaw := none, assign := none, property := some "f" }
      (.list 0 [])
      = .ok { skip := false, call := true, assign := none, property := some "f",
              args := [], kwargs := [], result := .null } :=
  ⟨fun _ => rfl, rfl, rfl⟩

/-- **C2** counterexample: in the newer revision's comparator the `ANY`
sentinel has no special meaning — with expected value `"ANY"` and the
non-error outcome `"hello"` the claim demands a pass, but the comparator
fails the feature. -/
theorem c2_any_sentinel_counterexample :
    part1Success (.str "ANY") (.str "hello") = false ∧
    jsEq (.str "hello") (.str "ERROR") = false := by
  refine ⟨by decide, by decide⟩

/-- **C2** (amended): only `src/cli.js`'s comparator implements the `ANY`
sentinel — there a feature with expected value `"ANY"` passes exactly when
the outcome is not `'ERROR'`; the newer revision's comparator treats
`"ANY"` as an ordinary string literal, passing exactly when the outcome is
strictly equal to `"ANY"`. -/
theorem c2_any_sentinel_amended :
    (∀ r : Value, cliSuccess r (.str "ANY") = !jsEq r (.str "ERROR"))
  ∧ (∀ r : Value, part1Success (.str "ANY") r = jsEq r (.str "ANY")) := by
  constructor
  · intro r
    cases r <;> simp [cliSuccess, jsEq]
    case str s =>
      by_cases h : s = "ANY"
      · subst h; decide
      · simp [h]
  · intro r
    rfl

/-- **C1** counterexample: with a present (non-`null`, non-`ANY`) expected
list and an outcome list that is deep-equal but a distinct value, both
comparators fail the feature — the comparison is JavaScript strict
equality, not a canonicalized deep equality, so a structurally equal list
outcome does not pass. -/
theorem c1_deep_equality_counterexample :
    deepEqual (.list 1 [.num 1]) (.list 0 [.num 1]) = true ∧
    jsEq (.list 0 [.num 1]) .null = false ∧
    jsEq (.list 0 [.num 1]) (.str "ANY") = false ∧
    part1Success (.list 0 [.num 1]) (.list 1 [.num 1]) = false ∧
    cliSuccess (.list 1 [.num 1]) (.list 0 [.num 1]) = false := by
  refine ⟨rfl, rfl, rfl, rfl, rfl⟩

/-- **C1** (amended): for a present (non-`null`) expected value the
comparator passes exactly on JavaScript strict equality `===` — value
equality for primitives, reference identity for lists and mappings, with
no deep-equality canonicalization and no date normalization; composed
through the executor, a get feature with marker-free expected value passes
exactly when the strict equality holds between the stored property value
and the expected value. -/
theorem c1_strict_comparison_amended :
    (∀ expected r : Value, jsEq expected .null = false →
       part1Success expected r = jsEq r expected)
  ∧ (∀ (env : Env) (scope : Scope) (name : String) (expected : Value),
       jsSplit name '.' = [name] → (name != "") = true →
       noMarkers expected = true → jsEq expected .null = false →
       testFeature env
         { skip := false, call := false, assign := none, property := some name,
           args := [], kwargs := [], result := expected } scope
         = .ok (jsEq (entryLookup scope name) expected, scope)) := by
  constructor
  · intro expected r h
    simp [part1Success, h]
  · intro env scope name expected hsplit hne hnm hnn
    have hr : evalFeatureParts scope
        { skip := false, call := false, assign := none, property := some name,
          args := [], kwargs := [], result := expected }
        = .ok ([], .obj 0 [], expected) := by
      simp [evalFeatureParts, evalValue_noMarkers scope expected hnm]
    simp [testFeature, hr, execOutcome, optTruthy, hne, execTry, hsplit, walkOwner,
      jsGetProp, applyAssign, part1Success, hnn]

/-- Witness for the amended **C1**: a get feature whose stored string
equals the expected string passes, and the updated scope is unchanged. -/
theorem c1_strict_comparison_witness :
    testFeature envThrow
      { skip := false, call := false, assign := none, property := some "x",
        args := [], kwargs := [], result := .str "v" }
      [("x", .str "v")] = .ok (true, [("x", .str "v")]) :=
  c1_strict_comparison_amended.2 envThrow [("x", .str "v")] "x" (.str "v") rfl rfl rfl rfl

/-- **C3** counterexample: in the newer revision the resolution step
(`evalFeature`) runs before the `try` block, so a feature whose argument
contains a reference to an unbound scope name makes `testFeature` throw —
the exception propagates as an uncaught error instead of collapsing to
the `'ERROR'` outcome. -/
theorem c3_resolution_uncaught_counterexample :
    testFeature envThrow
      { skip := false, call := true, assign := none, property := some "f",
        args := [.obj 1 [("nosuch", .null)]], kwargs := [], result := .null }
      [("f", .fn 0)] = .error .jsError := rfl

/-- **C3** (amended): only exceptions thrown inside the guarded block —
the property walk, the property read, invocation or construction — are
caught and collapse the outcome to `'ERROR'`, never escaping the executor
(for any behaviour of the implementation under test); an exception during
resolution of `args`/`kwargs`/`expected` happens before the guarded block
in the newer revision and propagates out of `testFeature` uncaught.  In
`src/cli.js` the whole execute step, including argument interpolation, is
guarded, and a thrown execution reports a normal failed feature. -/
theorem c3_exception_scope_amended :
    (∀ (env : Env) (f : Feature) (scope : Scope),
       f.skip = false → evalFeatureParts scope f = .error () →
       testFeature env f scope = .error .jsError)
  ∧ (∀ (env : Env) (f : Feature) (scope : Scope) (args : List Value)
       (kwargsV expected : Value),
       f.skip = false → optTruthy f.assign = false →
       evalFeatureParts scope f = .ok (args, kwargsV, expected) →
       testFeature env f scope
         = .ok (part1Success expected (execOutcome env scope f args kwargsV expected), scope))
  ∧ (∀ (env : Env) (scope : Scope) (f : Feature) (args : List Value)
       (kwargsV expected : Value),
       optTruthy f.property = true → execTry env scope f args kwargsV = .error () →
       execOutcome env scope f args kwargsV expected = .str "ERROR")
  ∧ (∀ (env : Env) (f : CliFeature) (scope : Scope),
       f.skip = false → cliExec env scope f = .error () →
       cliTestFeature env f scope
         = (cliSuccess (.str "ERROR") f.result,
            if optTruthy f.assign then entryUpdate scope (f.assign.getD "") (.str "ERROR")
            else scope)) := by
  refine ⟨?_, ?_, ?_, ?_⟩
  · intro env f scope hs hr
    simp [testFeature, hs, hr]
  · intro env f scope args kwargsV expected hs ha hr
    simp [testFeature, hs, hr, applyAssign, ha]
  · intro env scope f args kwargsV expected hp hex
    simp [execOutcome, hp, hex]
  · intro env f scope hs hex
    simp [cliTestFeature, hs, hex]

/-- Witness for the amended **C3**: a call whose invocation throws is
caught — the feature reports a normal failed verdict and the run
continues (conjunct 2 with conjunct 3's collapsed outcome). -/
theorem c3_exception_scope_witness :
    testFeature envThrow
      { skip := false, call := true, assign := none, property := some "f",
        args := [], kwargs := [], result := .null }
      [("f", .fn 0)] = .ok (false, [("f", .fn 0)]) :=
  c3_exception_scope_amended.2.1 envThrow
    { skip := false, call := true, assign := none, property := some "f",
      args := [], kwargs := [], result := .null }
    [("f", .fn 0)] [] (.obj 0 []) .null rfl rfl rfl

/-- **C4** counterexample: in `src/cli.js` the assign step performs no
constant check at all — a feature assigning to the already-bound
all-upper-case name `PACKAGE` completes normally, silently rebinding the
constant, and its failed comparison is an ordinary Failed verdict rather
than a fatal error. -/
theorem c4_constant_reassignment_counterexample :
    cliTestFeature envThrow
      { skip := false, assign := some "PACKAGE", property := "other",
        args := none, result := .str "x" }
      [("PACKAGE", .str "mypkg"), ("other", .str "newval")]
      = (false, [("PACKAGE", .str "newval"), ("other", .str "newval")]) := rfl

/-- **C4** (amended): in the newer revision the claim holds — a feature
with a truthy assign path whose last segment equals its own upper-cased
image and reads an already-bound (non-`undefined`) value makes
`testFeature` abort with the constant-reassignment error, a fatal outcome
distinct from any `.ok` verdict; in `src/cli.js` the assign step never
checks constants (its only constant guard sits in the set-property branch
and is caught and coerced into a normal failed feature). -/
theorem c4_constant_reassignment_amended :
    ∀ (env : Env) (f : Feature) (scope : Scope) (args : List Value)
      (kwargsV expected : Value) (a last : String) (pre : List String) (mid cur : Value),
      f.skip = false → f.assign = some a → (a != "") = true →
      evalFeatureParts scope f = .ok (args, kwargsV, expected) →
      jsSplit a '.' = pre ++ [last] →
      walkOwner (.obj 0 scope) pre = .ok mid →
      jsGetProp mid last = .ok cur →
      jsEq cur .undefined = false →
      jsStrToUpper last = last →
      testFeature env f scope = .error (.constantReassign last) := by
  intro env f scope args kwargsV expected a last pre mid cur hs ha hne hr hsplit hw hg hcur hup
  have haw := assignWalk_constant pre (.obj 0 scope) last
    (execOutcome env scope f args kwargsV expected) mid cur hw hg hcur hup
  simp [testFeature, hs, hr, applyAssign, ha, optTruthy, hne, hsplit, haw]

/-- Witness for the amended **C4**: reassigning the bound constant
`PACKAGE` in the newer revision aborts fatally. -/
theorem c4_constant_reassignment_witness :
    testFeature envThrow
      { skip := false, call := false, assign := some "PACKAGE", property := some "other",
        args := [], kwargs := [], result := .null }
      [("PACKAGE", .str "mypkg"), ("other", .str "newval")]
      = .error (.constantReassign "PACKAGE") :=
  c4_constant_reassignment_amended envThrow
    { skip := false, call := false, assign := some "PACKAGE", property := some "other",
      args := [], kwargs := [], result := .null }
    [("PACKAGE", .str "mypkg"), ("other", .str "newval")]
    [] (.obj 0 []) .null "PACKAGE" "PACKAGE" [] (.obj 0 [("PACKAGE", .str "mypkg"),
      ("other", .str "newval")]) (.str "mypkg")
    rfl rfl rfl rfl rfl rfl rfl rfl rfl

/-- **C6** counterexample: the executor's test is whether the first
character equals its own upper-cased image, not whether it is upper-case,
and nothing is skipped — for the leaf name `$mk`, whose first character
`$` is not an upper-case letter, the claim demands an ordinary invocation,
but the executor applies the property as a constructor. -/
theorem c6_construct_decision_counterexample :
    execTry envTag [("$mk", .fn 7)]
      { skip := false, call := true, assign := none, property := some "$mk",
        args := [], kwargs := [], result := .null }
      [] (.obj 0 []) = .ok (.str "constructed")
  ∧ specIsUpperChar '$' = false := by
  refine ⟨rfl, rfl⟩

/-- **C6** (amended): for a call feature the executor takes the first
character of the leaf name unmodified (no marker-prefix skipping) and
constructs exactly when that character equals its own upper-cased image
(so digits, `$` and other caseless characters also select construction),
invoking bound to the owner otherwise; keyword arguments, when their
resolved table is non-empty, are appended as one trailing structured
argument after the positional arguments. -/
theorem c6_construct_decision_amended :
    (∀ (env : Env) (owner : Value) (id : Nat) (c : Char) (cs : List Char)
       (cArgs : List Value),
       runCall env owner (.fn id) ⟨c :: cs⟩ cArgs
         = (if c.toUpper == c then exceptOfOption (env.construct id cArgs)
            else exceptOfOption (env.invoke id owner cArgs)))
  ∧ (∀ (env : Env) (scope : Scope) (f : Feature) (args : List Value) (kwargsV : Value)
       (name : String),
       f.property = some name → jsSplit name '.' = [name] → f.call = true →
       execTry env scope f args kwargsV
         = runCall env (.obj 0 scope) (entryLookup scope name) name
             (args ++ if sizeVal kwargsV != 0 then [kwargsV] else [])) := by
  constructor
  · intro env owner id c cs cArgs
    simp [runCall]
  · intro env scope f args kwargsV name hp hsplit hc
    simp [execTry, hp, hsplit, hc, walkOwner, jsGetProp, callArgsOf]
    by_cases hz : sizeVal kwargsV = 0 <;> simp [hz]

/-- Witness for the amended **C6**: a lower-case leaf name with one
keyword argument invokes the function bound to the scope object, passing
the keyword table as a trailing argument. -/
theorem c6_construct_decision_witness :
    execTry envTag [("run", .fn 2)]
      { skip := false, call := true, assign := none, property := some "run",
        args := [.num 1], kwargs := [], result := .null }
      [.num 1] (.obj 5 [("k", .num 2)]) = .ok (.str "invoked") := by
  have h := c6_construct_decision_amended.2 envTag [("run", .fn 2)]
    { skip := false, call := true, assign := none, property := some "run",
      args := [.num 1], kwargs := [], result := .null }
    [.num 1] (.obj 5 [("k", .num 2)]) "run" rfl rfl rfl
  rw [h]
  exact c6_construct_decision_amended.1 envTag (.obj 0 [("run", .fn 2)]) 2 'r' ['u', 'n']
    [.num 1, .obj 5 [("k", .num 2)]]

/-- **C7** counterexample: a list right-hand side does not by itself mark
a call — with an assign-only left-hand side (no property) the parser
leaves `call = false` and takes the whole list as the literal expected
value, scanning nothing. -/
theorem c7_list_marks_call_counterexample :
    parseFeatureCore { skipRaw := none, assign := some "x", property := none }
      (.list 5 [.num 1, .obj 6 [("==", .num 2)]])
      = .ok { skip := false, call := false, assign := some "x", property := none,
              args := [], kwargs := [], result := .list 5 [.num 1, .obj 6 [("==", .num 2)]] } :=
  rfl

/-- **C7** (amended): `call` is decided by the left-hand side (a property
present without the trailing `==` marker), not by the right-hand side
being a list.  For such a call feature with a list right-hand side the
elements are scanned in order exactly as claimed: a single-key sub-mapping
keyed `==` supplies the expected value (the last one wins) and is removed
from the arguments, a single-key sub-mapping whose key ends in `=`
becomes a keyword argument under the stripped key, and every other
element is appended to the positional arguments in order.  Without a
property (or with the `==` suffix) a list right-hand side is the literal
expected value. -/
theorem c7_right_side_scan_amended :
    (∀ (L : RawLeft) (id : Nat) (items : List Value),
       optTruthy L.property = true →
       strEndsWith (L.property.getD "") "==" = false →
       parseFeatureCore L (.list id items)
         = .ok { skip := parseSkip L.skipRaw, call := true, assign := L.assign,
                 property := L.property, args := argsOf items,
                 kwargs := kwargsOf items, result := expectedOf items })
  ∧ (∀ (L : RawLeft) (id : Nat) (items : List Value),
       optTruthy L.property = false → optTruthy L.assign = true →
       parseFeatureCore L (.list id items)
         = .ok { skip := parseSkip L.skipRaw, call := false, assign := L.assign,
                 property := L.property, args := [], kwargs := [],
                 result := .list id items }) := by
  constructor
  · intro L id items hp hne
    cases hLp : L.property with
    | none => rw [hLp] at hp; exact absurd hp (by simp [optTruthy])
    | some s =>
      rw [hLp] at hp hne
      simp only [Option.getD] at hne
      simp [parseFeatureCore, hLp, hp, hne, scanArgs_eq]
  · intro L id items hp ha
    simp [parseFeatureCore, hp, ha]

/-- Witness for the amended **C7**: a call scan collecting one positional
argument, one keyword argument and an expected value. -/
theorem c7_right_side_scan_witness :
    parseFeatureCore { skipRaw := none, assign := none, property := some "f" }
      (.list 5 [.num 1, .obj 6 [("k=", .num 2)], .obj 7 [("==", .str "out")]])
      = .ok { skip := false, call := true, assign := none, property := some "f",
              args := [.num 1], kwargs := [("k", .num 2)], result := .str "out" } :=
  c7_right_side_scan_amended.1 { skipRaw := none, assign := none, property := some "f" }
    5 [.num 1, .obj 6 [("k=", .num 2)], .obj 7 [("==", .str "out")]] rfl rfl

/-- **C8** counterexample: a call whose invocation throws produces the
`'ERROR'` outcome and a failed verdict, yet the executor still creates the
new scope entry `x` bound to `'ERROR'` — binding is not conditional on
success. -/
theorem c8_assign_on_success_counterexample :
    scopeFind [("boom", .fn 0)] "x" = none ∧
    testFeature envThrow
      { skip := false, call := true, assign := some "x", property := some "boom",
        args := [], kwargs := [], result := .null }
      [("boom", .fn 0)]
      = .ok (false, [("boom", .fn 0), ("x", .str "ERROR")]) := by
  refine ⟨rfl, rfl⟩

/-- **C8** (amended): for a feature with a truthy single-segment assign
path that does not trip the constant check, the executor binds the
outcome — whatever it is, the `'ERROR'` sentinel included — into the
scope before the comparison and independently of the verdict; in
`src/cli.js` the top-level assign is likewise unconditional. -/
theorem c8_assign_unconditional_amended :
    ∀ (env : Env) (f : Feature) (scope : Scope) (args : List Value)
      (kwargsV expected : Value) (a : String),
      f.skip = false → f.assign = some a → (a != "") = true →
      jsSplit a '.' = [a] →
      evalFeatureParts scope f = .ok (args, kwargsV, expected) →
      (!jsEq (entryLookup scope a) .undefined && (jsStrToUpper a == a)) = false →
      testFeature env f scope
        = .ok (part1Success expected (execOutcome env scope f args kwargsV expected),
               entryUpdate scope a (execOutcome env scope f args kwargsV expected)) := by
  intro env f scope args kwargsV expected a hs ha hne hsplit hr hcheck
  have haw := assignWalk_single scope a (execOutcome env scope f args kwargsV expected) hcheck
  simp [testFeature, hs, hr, applyAssign, ha, optTruthy, hne, hsplit, haw, asScope]

/-- Witness for the amended **C8**: a passing get feature binds its
outcome under a fresh lower-case name. -/
theorem c8_assign_unconditional_witness :
    testFeature envThrow
      { skip := false, call := false, assign := some "y", property := some "x",
        args := [], kwargs := [], result := .str "v" }
      [("x", .str "v")]
      = .ok (true, [("x", .str "v"), ("y", .str "v")]) :=
  c8_assign_unconditional_amended envThrow
    { skip := false, call := false, assign := some "y", property := some "x",
      args := [], kwargs := [], result := .str "v" }
    [("x", .str "v")] [] (.obj 0 []) (.str "v") "y" rfl rfl rfl rfl rfl rfl
